import Mathlib

/-!
Shallow embedding of the eyefi-config python implementation
(src/python-implementation/eyefi.py, eyefiHeader.py, eyefy-config.py).

Python strings are modelled as `List Char`, byte strings as `List Nat`
(each element a byte value 0..255), Python's unbounded `int` as `Nat`
(or `Int` where a function can produce `-1`).  Fallible operations
return `Option`/`Except`; a Python exception that escapes a function is
modelled as `none`.
-/

namespace Eyefi

/-- Constant `EYEFI_BUF_SIZE = 1024 * 2` from eyefi.py / eyefy-config.py. -/
def EYEFI_BUF_SIZE : Nat := 1024 * 2

/-- Constant `EYEFI_VOLUME_ID = "AA52-6922"` from eyefi.py. -/
def EYEFI_VOLUME_ID : String := "AA52-6922"

/-- eyefi.py `atoo(o)`: value of a single octal digit character, `-1` if the
character is outside `'0'..'7'`.  (`int(o, 8)` on a single octal digit is its
digit value.) -/
def atoo (o : Char) : Int :=
  if '0' ≤ o ∧ o ≤ '7' then ((o.toNat - '0'.toNat : Nat) : Int) else -1

/-- eyefi.py `octal_esc_to_chr(input_str)`.  The source first evaluates
`input_str[0]`, which raises `IndexError` on the empty string: that case is
modelled as `none`.  Otherwise the guard
`input_str[0] != '\\' or len(input_str) < 4` yields `-1`, and the loop
`for i in range(1, 4)` folds the three digits with `ret = (ret << 3) + tmp`
(`<< 3` on a non-negative int is multiplication by 8), returning the first
negative `atoo` result as-is. -/
def octal_esc_to_chr : List Char → Option Int
  | [] => none
  | c :: rest =>
    if c ≠ '\\' ∨ (c :: rest).length < 4 then some (-1)
    else
      match rest with
      | d1 :: d2 :: d3 :: _ =>
        if atoo d1 < 0 then some (atoo d1)
        else if atoo d2 < 0 then some (atoo d2)
        else if atoo d3 < 0 then some (atoo d3)
        else some ((((0 : Int) * 8 + atoo d1) * 8 + atoo d2) * 8 + atoo d3)
      | _ => some (-1)

/-- eyefi.py `replace_escapes(string)`: scan left to right; where
`octal_esc_to_chr` of the remaining suffix is `>= 0` append `chr(esc)` and
advance 4, else copy the current character and advance 1.  On a non-empty
suffix `octal_esc_to_chr` never returns `none` (no IndexError can occur), so
the `getD (-1)` default is unreachable. -/
def replace_escapes (s : List Char) : List Char :=
  match s with
  | [] => []
  | c :: rest =>
    let esc := (octal_esc_to_chr (c :: rest)).getD (-1)
    if 0 ≤ esc then Char.ofNat esc.toNat :: replace_escapes (rest.drop 3)
    else c :: replace_escapes rest
termination_by s.length
decreasing_by
  · simp [List.length_drop]
    omega
  · simp

end Eyefi

namespace EyefiHeader

/-- eyefiHeader.py `swap_bytes(src)`: builds `dest` by or-ing the four
mask-and-shift pieces, starting from `dest = 0`. -/
def swap_bytes (src : Nat) : Nat :=
  0 ||| ((src &&& 0xff000000) >>> 24)
    ||| ((src &&& 0x00ff0000) >>> 8)
    ||| ((src &&& 0x0000ff00) <<< 8)
    ||| ((src &&& 0x000000ff) <<< 24)

/-- eyefiHeader.py `le_to_host32(n)`: identity. -/
def le_to_host32 (n : Nat) : Nat := n

/-- eyefiHeader.py `be_to_host32(n)`: `swap_bytes(n)`. -/
def be_to_host32 (n : Nat) : Nat := swap_bytes n

/-- eyefiHeader.py `host_to_be32(n)`: `swap_bytes(n)`. -/
def host_to_be32 (n : Nat) : Nat := swap_bytes n

/-- Spec-side helper (not in the source): the `i`-th byte of `n`, used to
state what "reverses the byte order" means. -/
def byte_of (n i : Nat) : Nat := n / 2 ^ (8 * i) % 2 ^ 8

end EyefiHeader

namespace Eyefi

/-- True for the two Windows path separator characters, as in ntpath. -/
def isSep (c : Char) : Bool := c = '\\' || c = '/'

/-- Models the post-drive part of Python `ntpath.splitdrive(p)` (the second
component of the returned pair), used by `os.path.basename` on Windows: a
two-character drive (second char `:`) or a UNC prefix is stripped, otherwise
the input is returned unchanged. -/
def splitdrive_rest (l : List Char) : List Char :=
  match l with
  | a :: b :: rest =>
    if isSep a && isSep b && !((rest.head?.map isSep).getD false) then
      match rest.dropWhile (fun c => !(isSep c)) with
      | [] => l
      | _ :: r2 =>
        match r2 with
        | [] => []
        | c2 :: _ => if isSep c2 then l else r2.dropWhile (fun c => !(isSep c))
    else if b = ':' then rest
    else l
  | _ => l

/-- eyefi.py `basename(path) = os.path.basename(path)`, modelled for the
Windows (`ntpath`) flavour the surrounding code runs under: the suffix of
the post-drive part after its last path separator. -/
def basename (s : String) : String :=
  String.mk (((splitdrive_rest s.toList).reverse.takeWhile (fun c => !(isSep c))).reverse)

/-- State of one candidate drive as seen by eyefi.py: `present` models
`os.path.exists(drive_path)`, `query` models the `GetVolumeInformationW`
call — `none` when the call fails (falsy `result`), `some label` with the
returned volume name on success. -/
structure DriveState where
  present : Bool
  query : Option String

/-- eyefi.py `dev_has_eyefi_vol_id(dev)`: on Windows, the volume query must
succeed and `basename(volume_name) == EYEFI_VOLUME_ID`; on any other
platform the function returns False. -/
def dev_has_eyefi_vol_id (isWindows : Bool) (st : DriveState) : Bool :=
  if isWindows then
    match st.query with
    | none => false
    | some label => basename label == EYEFI_VOLUME_ID
  else false

/-- The drive letters scanned by `locate_eyefi_mount`, in source order. -/
def drive_letters : List Char := "ABCDEFGHIJKLMNOPQRSTUVWXYZ".toList

/-- The candidate root `f"{drive}:\\"` built by `locate_eyefi_mount`. -/
def drive_path (c : Char) : String := String.mk [c, ':', '\\']

/-- eyefi.py `locate_eyefi_mount()`: on Windows, return the first drive
letter path that exists and carries the Eye-Fi volume id; otherwise (no
match, or not on Windows) return `None`. -/
def locate_eyefi_mount (isWindows : Bool) (env : Char → DriveState) : Option String :=
  if isWindows then
    (drive_letters.find?
      (fun c => (env c).present && dev_has_eyefi_vol_id isWindows (env c))).map drive_path
  else none

/-- The match condition applied to one drive inside `locate_eyefi_mount`
(`os.path.exists(drive_path) and dev_has_eyefi_vol_id(drive_path)`). -/
def drive_matches (env : Char → DriveState) (c : Char) : Bool :=
  (env c).present && dev_has_eyefi_vol_id true (env c)

/-- Decidable check that no drive's volume label is exactly
`EYEFI_VOLUME_ID` (a failed query contributes no label). -/
def no_exact_label_match (env : Char → DriveState) : Bool :=
  drive_letters.all (fun c => ((env c).query.getD "") != EYEFI_VOLUME_ID)

end Eyefi

namespace EyefyConfig

/-- Constant `EYEFI_BUF_SIZE = 1024 * 2` from eyefy-config.py. -/
def EYEFI_BUF_SIZE : Nat := 1024 * 2

/-- Log message kinds printed by eyefy-config.py on I/O failure, keeping the
path and the formatted error of the corresponding `print` call. -/
inductive Msg where
  | fileNotFound (path : String)
  | readError (path : String) (err : String)
  | writeError (path : String) (err : String)
deriving DecidableEq, Repr

/-- Caller-visible behaviour of eyefy-config.py `write_to(file_path, data)`.
`io` is the outcome of the `open`/`write`/`flush`/`fsync` sequence inside
the `try` block.  The whole body is wrapped in `except Exception`: a failure
is printed and the function then falls off the end, returning `None` exactly
as in the success case, so the second component (what the caller observes)
is `ok` in both branches. -/
def write_to_outcome (file_path : String) (io : Except String Unit) :
    List Msg × Except String Unit :=
  match io with
  | .ok _ => ([], .ok ())
  | .error e => ([Msg.writeError file_path e], .ok ())

/-- Caller-visible behaviour of eyefy-config.py `read_from(file_path)`.
`file` is the file's content (`none` when the path does not exist, in which
case `open` raises `FileNotFoundError`); `fault` is a possible other failure
of the open/mmap/slice sequence.  Both failure branches print a message and
return `None`; success returns the first `EYEFI_BUF_SIZE` bytes of the
mmapped content. -/
def read_from_outcome (file_path : String) (file : Option (List Nat))
    (fault : Option String) : List Msg × Option (List Nat) :=
  match file with
  | none => ([Msg.fileNotFound file_path], none)
  | some content =>
    match fault with
    | some e => ([Msg.readError file_path e], none)
    | none => ([], some (content.take EYEFI_BUF_SIZE))

/-- Fault-free state semantics of the channel files: `files` maps a path to
its content (`none` = missing), `reads` records the paths passed to
`read_from`, in order. -/
structure CardIOState where
  files : String → Option (List Nat)
  reads : List String

/-- State effect of `write_to(path, data)`: the file at `path` is created or
truncated and then holds exactly `data`. -/
def write_to_st (path : String) (data : List Nat) (st : CardIOState) : CardIOState :=
  { st with files := fun p => if p = path then some data else st.files p }

/-- State effect and result of `read_from(path)`: the read is logged, no
file is modified, and the first `EYEFI_BUF_SIZE` bytes are returned. -/
def read_from_st (path : String) (st : CardIOState) :
    CardIOState × Option (List Nat) :=
  ({ st with reads := st.reads ++ [path] },
   (st.files path).map (fun c => c.take EYEFI_BUF_SIZE))

/-- The zero buffer `zbuf = bytearray(EYEFI_BUF_SIZE)` of `zero_card_files`. -/
def zbuf : List Nat := List.replicate EYEFI_BUF_SIZE 0

/-- A CPython call of the two-parameter `write_to(file_path, data)` with
`argc` positional arguments.  The interpreter checks the arity before any
statement of the body runs: a mismatched call raises `TypeError` and
performs no I/O at all.  (The error text is CPython's message for the one
mismatched call in the program, which passes three arguments.) -/
def call_write_to (argc : Nat) (path : String) (data : List Nat)
    (st : CardIOState) : Except String CardIOState :=
  if argc = 2 then Except.ok (write_to_st path data st)
  else Except.error "TypeError: write_to() takes 2 positional arguments but 3 were given"

/-- eyefy-config.py `zero_card_files()` as executed by CPython.  Its first
statement is `write_to("RSPM", zbuf, EYEFI_BUF_SIZE)` — three positional
arguments for the two-parameter `write_to` — so the interpreter raises
`TypeError` at that call, before any file is opened, written or read, and
no caller catches it.  The remaining statements `read_from("REQM")`,
`read_from("REQC")`, `read_from("RSPM")` (note: the response-control name
"RSPC" appears in none of them) are only reached if that call returns. -/
def zero_card_files_run (st : CardIOState) : Except String CardIOState :=
  match call_write_to 3 "RSPM" zbuf st with
  | Except.error e => Except.error e
  | Except.ok st1 =>
    let st2 := (read_from_st "REQM" st1).1
    let st3 := (read_from_st "REQC" st2).1
    Except.ok (read_from_st "RSPM" st3).1

/-- Little-endian value of a byte list, as `int.from_bytes(bs, "little")`
(each element is a byte 0..255). -/
def int_from_le_bytes (bs : List Nat) : Nat :=
  bs.foldr (fun b acc => b + 256 * acc) 0

/-- Content of the global `eyefi_buf` produced by `align_buf()`: a slice
`memoryview(unaligned_buf)[addr:]` of the all-zero `unaligned_buf`.  No code
in the program ever writes into `unaligned_buf` (in particular `read_from`
returns its data instead of filling the buffer), so whatever the runtime
address-dependent slice length `len` is, the content is `len` zero bytes. -/
def eyefi_buf (len : Nat) : List Nat := List.replicate len 0

/-- eyefy-config.py `read_seq_from(file)` as written: it calls
`read_from(file)` but discards the returned data, then parses
`eyefi_buf[:4]` little-endian — so its value depends only on the (all-zero)
`eyefi_buf`, never on the channel file. -/
def read_seq_from (bufLen : Nat) : Nat :=
  int_from_le_bytes ((eyefi_buf bufLen).take 4)

/-- Modelled from the spec: the intended idle-sequence read that
`read_seq_from` is documented to perform — the first 4 bytes of the
response-control channel content, little-endian.  (Missing from the code:
`read_from` never populates `eyefi_buf`, so the channel bytes it returns are
dropped on the floor.) -/
def read_seq_from_intended (rspc : List Nat) : Nat :=
  int_from_le_bytes (rspc.take 4)

/-- The sequence-number update at the end of `init_card()` as a function of
the value `v` returned by `read_seq_from`: if `v == 0` seed with `0x1234`,
then increment by one. -/
def seq_after_init (v : Nat) : Nat :=
  (if v = 0 then 0x1234 else v) + 1

end EyefyConfig

namespace EyefyConfig

/-- A channel state with stale bytes pending in the response-control file
and empty request/response files elsewhere (fixture for C2). -/
def rspc_pending_st : CardIOState :=
  { files := fun p => if p = "RSPC" then some [1, 2, 3] else some [],
    reads := [] }

end EyefyConfig

namespace Eyefi

/-- Spec-side: is the character an octal digit, the condition `atoo` tests. -/
def is_octal (c : Char) : Bool := decide ('0' ≤ c) && decide (c ≤ '7')

/-- Spec-side: does the list start with a well-formed 4-character octal
escape (backslash followed by three octal digits)? -/
def escValidB : List Char → Bool
  | c :: d1 :: d2 :: d3 :: _ =>
    (c == '\\') && is_octal d1 && is_octal d2 && is_octal d3
  | _ => false

/-- Spec-side: the value of the three octal digits following the backslash
(meaningful when `escValidB` holds). -/
def escValue : List Char → Int
  | _ :: d1 :: d2 :: d3 :: _ => (atoo d1 * 8 + atoo d2) * 8 + atoo d3
  | _ => -1

/-- Does `replace_escapes` treat the head of this suffix as an escape, i.e.
is `octal_esc_to_chr` of it non-negative? -/
def escHead (s : List Char) : Bool :=
  match octal_esc_to_chr s with
  | some v => decide (0 ≤ v)
  | none => false

/-- Environment in which drive A is present and its volume query succeeds
with a label whose basename — but not the label itself — is the Eye-Fi
volume id (fixture for C7). -/
def stale_label_env : Char → DriveState :=
  fun c => if c = 'A' then ⟨true, some "stale\\AA52-6922"⟩ else ⟨false, none⟩

end Eyefi

theorem int_from_le_bytes_replicate_zero (n : Nat) :
    EyefyConfig.int_from_le_bytes (List.replicate n 0) = 0 := by
  induction n with
  | zero => rfl
  | succ k ih =>
    unfold EyefyConfig.int_from_le_bytes at *
    simp only [List.replicate_succ, List.foldr_cons]
    omega

/-- C1: the claim reads "after init_card the sequence equals the idle value
read from the response-control channel plus one (0x1235 when that value is
zero)".  In the code, `read_from`'s returned channel bytes are dropped and
`read_seq_from` parses the never-written all-zero `eyefi_buf` instead, so
the sequence after init is 0x1235 for every channel content and every
buffer-slice length; on the intended dataflow, channel bytes 78 56 00 00
would give 0x5679, exhibiting the divergence. -/
theorem c1_read_seq_ignores_channel :
    (∀ bufLen : Nat,
      EyefyConfig.seq_after_init (EyefyConfig.read_seq_from bufLen) = 0x1235)
    ∧ EyefyConfig.seq_after_init
        (EyefyConfig.read_seq_from_intended [0x78, 0x56, 0, 0]) = 0x5679
    ∧ EyefyConfig.seq_after_init
        (EyefyConfig.read_seq_from_intended [0, 0, 0, 0]) = 0x1235 := by
  refine ⟨fun bufLen => ?_, by decide, by decide⟩
  have h : EyefyConfig.read_seq_from bufLen = 0 := by
    unfold EyefyConfig.read_seq_from EyefyConfig.eyefi_buf
    rw [List.take_replicate]
    exact int_from_le_bytes_replicate_zero _
  rw [h]
  decide

/-- C2: the claim says the clearing step writes a full zero buffer to the
response-payload channel and reads-and-discards the request-payload,
request-control and response-control channels.  In the code, the very first
statement of `zero_card_files` passes three positional arguments to the
two-parameter `write_to`, so CPython raises `TypeError` before any I/O:
for every channel state — in particular one with stale bytes pending in the
response-control file — `zero_card_files` aborts with the uncaught
exception, writing nothing and reading nothing, so none of the claimed
clearing happens. -/
theorem c2_zero_card_files_type_error :
    (∀ st : EyefyConfig.CardIOState,
      EyefyConfig.zero_card_files_run st
        = Except.error
            "TypeError: write_to() takes 2 positional arguments but 3 were given")
    ∧ EyefyConfig.zero_card_files_run EyefyConfig.rspc_pending_st
        = Except.error
            "TypeError: write_to() takes 2 positional arguments but 3 were given" :=
  ⟨fun _ => rfl, rfl⟩

/-- C3 counterexample: when the write/flush/fsync sequence fails, `write_to`
returns to its caller exactly the same value as on success (the exception is
caught and only printed), falsifying "does not return as if successful". -/
theorem c3_write_failure_indistinguishable :
    (EyefyConfig.write_to_outcome "rspm" (Except.error "fsync failed")).2
        = Except.ok ()
    ∧ (EyefyConfig.write_to_outcome "rspm" (Except.error "fsync failed")).2
        = (EyefyConfig.write_to_outcome "rspm" (Except.ok ())).2 :=
  ⟨rfl, rfl⟩

/-- C3 amended: every failure of the write/flush/fsync sequence is caught
inside `write_to`, a message is printed, and the function returns None
exactly as on success; the printed log is the only trace of the failure. -/
theorem c3_write_to_amended :
    ∀ (p : String) (io : Except String Unit),
      (EyefyConfig.write_to_outcome p io).2 = Except.ok ()
      ∧ ((EyefyConfig.write_to_outcome p io).1 = []
          ↔ io = Except.ok ()) := by
  intro p io
  cases io with
  | ok u => cases u; simp [EyefyConfig.write_to_outcome]
  | error e => simp [EyefyConfig.write_to_outcome]

/-- C8 counterexample: a missing file and a distinct I/O failure both make
`read_from` return None — the caller cannot tell the two failure kinds
apart from the returned value. -/
theorem c8_read_failure_indistinguishable :
    (EyefyConfig.read_from_outcome "reqm" none none).2 = none
    ∧ (EyefyConfig.read_from_outcome "reqm" (some [1, 2, 3])
        (some "Input-output error")).2 = none
    ∧ (EyefyConfig.read_from_outcome "reqm" none none).2
        = (EyefyConfig.read_from_outcome "reqm" (some [1, 2, 3])
            (some "Input-output error")).2 :=
  ⟨rfl, rfl, rfl⟩

/-- C8 amended: on success `read_from` returns the file content truncated to
EYEFI_BUF_SIZE; a missing path prints "File not found" and returns None; any
other failure prints a distinct "Error reading" message and returns None —
the two failure kinds differ only in the printed message, not in the value
returned to the caller. -/
theorem c8_read_from_amended :
    ∀ (p : String) (content : List Nat) (e : String) (fault : Option String),
      EyefyConfig.read_from_outcome p (some content) none
          = ([], some (content.take EyefyConfig.EYEFI_BUF_SIZE))
      ∧ EyefyConfig.read_from_outcome p none fault
          = ([EyefyConfig.Msg.fileNotFound p], none)
      ∧ EyefyConfig.read_from_outcome p (some content) (some e)
          = ([EyefyConfig.Msg.readError p e], none)
      ∧ decide (EyefyConfig.Msg.fileNotFound p = EyefyConfig.Msg.readError p e)
          = false := by
  intro p content e fault
  refine ⟨rfl, rfl, rfl, ?_⟩
  simp

/-- C9: whatever value `read_seq_from` yields — on the intended dataflow any
little-endian value of the response-control bytes, on the actual dataflow
the parse of the zero buffer — the sequence number `init_card` installs is
strictly positive, hence never zero. -/
theorem c9_seq_nonzero_after_init :
    (∀ rspc : List Nat,
      0 < EyefyConfig.seq_after_init (EyefyConfig.read_seq_from_intended rspc))
    ∧ (∀ bufLen : Nat,
      0 < EyefyConfig.seq_after_init (EyefyConfig.read_seq_from bufLen))
    ∧ (∀ v : Nat, 0 < EyefyConfig.seq_after_init v) := by
  have h : ∀ v : Nat, 0 < EyefyConfig.seq_after_init v := by
    intro v
    unfold EyefyConfig.seq_after_init
    split <;> omega
  exact ⟨fun rspc => h _, fun bufLen => h _, h⟩

theorem atoo_of_octal (c : Char) (h : Eyefi.is_octal c = true) :
    0 ≤ Eyefi.atoo c ∧ Eyefi.atoo c ≤ 7 := by
  unfold Eyefi.is_octal at h
  simp only [Bool.and_eq_true, decide_eq_true_eq] at h
  unfold Eyefi.atoo
  rw [if_pos h]
  obtain ⟨h1, h2⟩ := h
  simp [Char.le_def] at h1 h2
  have h1n : 48 ≤ c.toNat := h1
  have h2n : c.toNat ≤ 55 := h2
  have h0 : Char.toNat '0' = 48 := rfl
  omega

theorem atoo_of_not_octal (c : Char) (h : Eyefi.is_octal c = false) :
    Eyefi.atoo c = -1 := by
  unfold Eyefi.is_octal at h
  simp only [Bool.and_eq_false_iff, decide_eq_false_iff_not] at h
  unfold Eyefi.atoo
  rw [if_neg]
  rcases h with h | h <;> tauto

theorem atoo_neg_iff (c : Char) : Eyefi.atoo c < 0 ↔ Eyefi.is_octal c = false := by
  cases h : Eyefi.is_octal c
  · have := atoo_of_not_octal c h
    simp [this]
  · have := atoo_of_octal c h
    simp
    omega

theorem octal_esc_to_chr_cons_eq (c : Char) (rest : List Char) :
    Eyefi.octal_esc_to_chr (c :: rest)
      = some (if Eyefi.escValidB (c :: rest) then Eyefi.escValue (c :: rest) else -1) := by
  match rest with
  | [] => simp [Eyefi.octal_esc_to_chr, Eyefi.escValidB]
  | [d1] => simp [Eyefi.octal_esc_to_chr, Eyefi.escValidB]
  | [d1, d2] => simp [Eyefi.octal_esc_to_chr, Eyefi.escValidB]
  | d1 :: d2 :: d3 :: t =>
    by_cases hc : c = '\\'
    · subst hc
      simp only [Eyefi.octal_esc_to_chr, List.length_cons]
      rw [if_neg (by simp)]
      simp only [Eyefi.escValidB, beq_self_eq_true, Bool.true_and]
      by_cases h1 : Eyefi.is_octal d1
      · by_cases h2 : Eyefi.is_octal d2
        · by_cases h3 : Eyefi.is_octal d3
          · rw [if_neg (by rw [atoo_neg_iff]; simp [h1]),
                if_neg (by rw [atoo_neg_iff]; simp [h2]),
                if_neg (by rw [atoo_neg_iff]; simp [h3])]
            simp [h1, h2, h3, Eyefi.escValue]
          · simp only [Bool.eq_false_iff] at h3 ⊢
            rw [if_neg (by rw [atoo_neg_iff]; simp [h1]),
                if_neg (by rw [atoo_neg_iff]; simp [h2]),
                if_pos (by rw [atoo_neg_iff]; simp [h3])]
            have := atoo_of_not_octal d3 (by simpa using h3)
            simp [this, h3, h1, h2]
        · simp only [Bool.eq_false_iff] at h2 ⊢
          rw [if_neg (by rw [atoo_neg_iff]; simp [h1]),
              if_pos (by rw [atoo_neg_iff]; simp [h2])]
          have := atoo_of_not_octal d2 (by simpa using h2)
          simp [this, h2, h1]
      · simp only [Bool.eq_false_iff] at h1 ⊢
        rw [if_pos (by rw [atoo_neg_iff]; simp [h1])]
        have := atoo_of_not_octal d1 (by simpa using h1)
        simp [this, h1]
    · simp only [Eyefi.octal_esc_to_chr]
      rw [if_pos (Or.inl hc)]
      simp [Eyefi.escValidB, hc]

theorem escValue_bounds (s : List Char) (hs : Eyefi.escValidB s = true) :
    0 ≤ Eyefi.escValue s ∧ Eyefi.escValue s < 512 := by
  match s with
  | c :: d1 :: d2 :: d3 :: t =>
    simp only [Eyefi.escValidB, Bool.and_eq_true, beq_iff_eq] at hs
    obtain ⟨⟨⟨_, h1⟩, h2⟩, h3⟩ := hs
    have a1 := atoo_of_octal d1 h1
    have a2 := atoo_of_octal d2 h2
    have a3 := atoo_of_octal d3 h3
    simp only [Eyefi.escValue]
    constructor <;> nlinarith [a1.1, a1.2, a2.1, a2.2, a3.1, a3.2]

theorem octal_esc_cons_ne_none (c : Char) (rest : List Char) :
    Eyefi.octal_esc_to_chr (c :: rest) ≠ none := by
  rw [octal_esc_to_chr_cons_eq]
  simp

theorem escHead_cons (c : Char) (rest : List Char) :
    Eyefi.escHead (c :: rest)
      = decide (0 ≤ (Eyefi.octal_esc_to_chr (c :: rest)).getD (-1)) := by
  cases h : Eyefi.octal_esc_to_chr (c :: rest) with
  | none => exact absurd h (octal_esc_cons_ne_none c rest)
  | some v => simp [Eyefi.escHead, h]

/-- C4 counterexample: the well-formed escape backslash-400 decodes to 256,
which is not "a result in 0..255"; and on the empty string the code indexes
`input_str[0]` and raises IndexError instead of returning the -1 sentinel. -/
theorem c4_escape_value_exceeds_byte :
    Eyefi.octal_esc_to_chr ['\\', '4', '0', '0'] = some 256
    ∧ Eyefi.octal_esc_to_chr [] = none := by
  refine ⟨?_, rfl⟩
  decide

/-- C4 amended: on a non-empty input, `octal_esc_to_chr` returns the value
of the three octal digits (a result in 0..511, which can exceed one byte)
when the input starts with a backslash followed by three octal digits and
has length at least 4, and returns the sentinel -1 otherwise; on the empty
string it raises IndexError (modelled as `none`) instead of returning -1. -/
theorem c4_octal_esc_amended :
    (∀ (c : Char) (rest : List Char),
      Eyefi.octal_esc_to_chr (c :: rest)
        = some (if Eyefi.escValidB (c :: rest) then Eyefi.escValue (c :: rest) else -1))
    ∧ (∀ s : List Char, Eyefi.escValidB s = true →
        0 ≤ Eyefi.escValue s ∧ Eyefi.escValue s < 512)
    ∧ Eyefi.octal_esc_to_chr [] = none :=
  ⟨octal_esc_to_chr_cons_eq, escValue_bounds, rfl⟩

/-- Witness for C4 amended at the concrete escape backslash-777. -/
theorem c4_octal_esc_amended_witness :
    0 ≤ Eyefi.escValue ['\\', '7', '7', '7']
    ∧ Eyefi.escValue ['\\', '7', '7', '7'] < 512 :=
  c4_octal_esc_amended.2.1 ['\\', '7', '7', '7'] (by decide)

/-- C5: if no suffix of the string starts with a valid 4-character octal
escape (so `octal_esc_to_chr` is negative at every position the scan can
reach), `replace_escapes` copies every character through unchanged and
returns the string itself. -/
theorem c5_no_escape_identity :
    ∀ s : List Char, (∀ t ∈ s.tails, Eyefi.escHead t = false) →
      Eyefi.replace_escapes s = s := by
  intro s
  induction s using Eyefi.replace_escapes.induct with
  | case1 => intro _; simp [Eyefi.replace_escapes]
  | case2 c rest esc hesc ih =>
    intro h
    have hself : Eyefi.escHead (c :: rest) = false :=
      h (c :: rest) (by rw [List.mem_tails])
    rw [escHead_cons] at hself
    simp only [decide_eq_false_iff_not] at hself
    exact absurd hesc (by simpa [esc] using hself)
  | case3 c rest esc hesc ih =>
    intro h
    rw [Eyefi.replace_escapes]
    simp only [esc] at hesc
    rw [if_neg hesc]
    congr 1
    exact ih (fun t ht => h t (by rw [List.tails_cons]; exact List.mem_cons_of_mem _ ht))

/-- Witness for C5 at the concrete escape-free string "abc". -/
theorem c5_no_escape_identity_witness :
    Eyefi.replace_escapes ['a', 'b', 'c'] = ['a', 'b', 'c'] :=
  c5_no_escape_identity ['a', 'b', 'c'] (by decide)

/-- C10: `replace_escapes` never lengthens its input — a decoded escape
turns four input characters into one output character and every other
character maps to exactly one output character. -/
theorem c10_replace_escapes_length_le :
    ∀ s : List Char, (Eyefi.replace_escapes s).length ≤ s.length := by
  intro s
  induction s using Eyefi.replace_escapes.induct with
  | case1 => simp [Eyefi.replace_escapes]
  | case2 c rest esc hesc ih =>
    rw [Eyefi.replace_escapes]
    simp only [esc] at hesc
    rw [if_pos hesc]
    simp only [List.length_cons]
    have := List.length_drop 3 rest
    omega
  | case3 c rest esc hesc ih =>
    rw [Eyefi.replace_escapes]
    simp only [esc] at hesc
    rw [if_neg hesc]
    simp only [List.length_cons]
    omega

theorem and_ff_shift (n k : Nat) :
    n &&& ((2 ^ 8 - 1) <<< k) = n / 2 ^ k % 2 ^ 8 * 2 ^ k := by
  have h1 : n / 2 ^ k % 2 ^ 8 * 2 ^ k = ((n >>> k) &&& (2 ^ 8 - 1)) <<< k := by
    rw [Nat.shiftRight_eq_div_pow, Nat.and_pow_two_sub_one_eq_mod, Nat.shiftLeft_eq]
  rw [h1]
  apply Nat.eq_of_testBit_eq
  intro i
  simp only [Nat.testBit_and, Nat.testBit_shiftLeft, Nat.testBit_shiftRight]
  by_cases h : k ≤ i
  · simp only [ge_iff_le, h, decide_True, Bool.true_and]
    rw [Nat.add_sub_cancel' h]
  · have hd : decide (i ≥ k) = false := by simp [h]
    simp [hd]

theorem or_lt_eq_add (k a b : Nat) (hb : b < 2 ^ k) :
    b ||| 2 ^ k * a = 2 ^ k * a + b := by
  rw [Nat.or_comm]
  exact (Nat.mul_add_lt_is_or hb a).symm

theorem swap_bytes_eq (n : Nat) :
    EyefiHeader.swap_bytes n
      = n / 2 ^ 24 % 2 ^ 8 + n / 2 ^ 16 % 2 ^ 8 * 2 ^ 8
        + n / 2 ^ 8 % 2 ^ 8 * 2 ^ 16 + n % 2 ^ 8 * 2 ^ 24 := by
  have m24 : n &&& 0xff000000 = n / 2 ^ 24 % 2 ^ 8 * 2 ^ 24 := by
    have h := and_ff_shift n 24
    have e : ((2 ^ 8 - 1 : Nat) <<< 24) = 0xff000000 := by decide
    rw [e] at h
    exact h
  have m16 : n &&& 0x00ff0000 = n / 2 ^ 16 % 2 ^ 8 * 2 ^ 16 := by
    have h := and_ff_shift n 16
    have e : ((2 ^ 8 - 1 : Nat) <<< 16) = 0x00ff0000 := by decide
    rw [e] at h
    exact h
  have m8 : n &&& 0x0000ff00 = n / 2 ^ 8 % 2 ^ 8 * 2 ^ 8 := by
    have h := and_ff_shift n 8
    have e : ((2 ^ 8 - 1 : Nat) <<< 8) = 0x0000ff00 := by decide
    rw [e] at h
    exact h
  have m0 : n &&& 0x000000ff = n % 2 ^ 8 := by
    have h : (0x000000ff : Nat) = 2 ^ 8 - 1 := by decide
    rw [h, Nat.and_pow_two_sub_one_eq_mod]
  unfold EyefiHeader.swap_bytes
  rw [m24, m16, m8, m0, Nat.zero_or,
      Nat.shiftRight_eq_div_pow, Nat.shiftRight_eq_div_pow,
      Nat.shiftLeft_eq, Nat.shiftLeft_eq]
  have p1 : n / 2 ^ 24 % 2 ^ 8 * 2 ^ 24 / 2 ^ 24 = n / 2 ^ 24 % 2 ^ 8 := by
    omega
  have p2 : n / 2 ^ 16 % 2 ^ 8 * 2 ^ 16 / 2 ^ 8 = n / 2 ^ 16 % 2 ^ 8 * 2 ^ 8 := by
    omega
  have p3 : n / 2 ^ 8 % 2 ^ 8 * 2 ^ 8 * 2 ^ 8 = n / 2 ^ 8 % 2 ^ 8 * 2 ^ 16 := by
    ring
  rw [p1, p2, p3]
  have hb3 : n / 2 ^ 24 % 2 ^ 8 < 2 ^ 8 := Nat.mod_lt _ (by norm_num)
  have hb2 : n / 2 ^ 16 % 2 ^ 8 < 2 ^ 8 := Nat.mod_lt _ (by norm_num)
  have hb1 : n / 2 ^ 8 % 2 ^ 8 < 2 ^ 8 := Nat.mod_lt _ (by norm_num)
  have s1 : n / 2 ^ 24 % 2 ^ 8 ||| n / 2 ^ 16 % 2 ^ 8 * 2 ^ 8
      = 2 ^ 8 * (n / 2 ^ 16 % 2 ^ 8) + n / 2 ^ 24 % 2 ^ 8 := by
    rw [Nat.mul_comm (n / 2 ^ 16 % 2 ^ 8)]
    exact or_lt_eq_add 8 _ _ hb3
  rw [s1]
  have s2 : 2 ^ 8 * (n / 2 ^ 16 % 2 ^ 8) + n / 2 ^ 24 % 2 ^ 8
        ||| n / 2 ^ 8 % 2 ^ 8 * 2 ^ 16
      = 2 ^ 16 * (n / 2 ^ 8 % 2 ^ 8)
        + (2 ^ 8 * (n / 2 ^ 16 % 2 ^ 8) + n / 2 ^ 24 % 2 ^ 8) := by
    rw [Nat.mul_comm (n / 2 ^ 8 % 2 ^ 8)]
    exact or_lt_eq_add 16 _ _ (by omega)
  rw [s2]
  have s3 : 2 ^ 16 * (n / 2 ^ 8 % 2 ^ 8)
        + (2 ^ 8 * (n / 2 ^ 16 % 2 ^ 8) + n / 2 ^ 24 % 2 ^ 8)
        ||| n % 2 ^ 8 * 2 ^ 24
      = 2 ^ 24 * (n % 2 ^ 8)
        + (2 ^ 16 * (n / 2 ^ 8 % 2 ^ 8)
          + (2 ^ 8 * (n / 2 ^ 16 % 2 ^ 8) + n / 2 ^ 24 % 2 ^ 8)) := by
    rw [Nat.mul_comm (n % 2 ^ 8)]
    exact or_lt_eq_add 24 _ _ (by omega)
  rw [s3]
  ring

theorem swap_bytes_eq_lit (n : Nat) :
    EyefiHeader.swap_bytes n
      = n / 16777216 % 256 + n / 65536 % 256 * 256
        + n / 256 % 256 * 65536 + n % 256 * 16777216 := swap_bytes_eq n

theorem byte_of_eq_0 (n : Nat) : EyefiHeader.byte_of n 0 = n % 256 := by
  unfold EyefiHeader.byte_of
  norm_num

theorem byte_of_eq_1 (n : Nat) : EyefiHeader.byte_of n 1 = n / 256 % 256 := by
  unfold EyefiHeader.byte_of
  norm_num

theorem byte_of_eq_2 (n : Nat) : EyefiHeader.byte_of n 2 = n / 65536 % 256 := by
  unfold EyefiHeader.byte_of
  norm_num

theorem byte_of_eq_3 (n : Nat) : EyefiHeader.byte_of n 3 = n / 16777216 % 256 := by
  unfold EyefiHeader.byte_of
  norm_num

theorem bytes_div24 (b0 b1 b2 b3 : Nat) (h0 : b0 < 256) (h1 : b1 < 256)
    (h2 : b2 < 256) (h3 : b3 < 256) :
    (b3 + b2 * 256 + b1 * 65536 + b0 * 16777216) / 16777216 % 256 = b0 := by
  omega

theorem bytes_div16 (b0 b1 b2 b3 : Nat) (h0 : b0 < 256) (h1 : b1 < 256)
    (h2 : b2 < 256) (h3 : b3 < 256) :
    (b3 + b2 * 256 + b1 * 65536 + b0 * 16777216) / 65536 % 256 = b1 := by
  omega

theorem bytes_div8 (b0 b1 b2 b3 : Nat) (h0 : b0 < 256) (h1 : b1 < 256)
    (h2 : b2 < 256) (h3 : b3 < 256) :
    (b3 + b2 * 256 + b1 * 65536 + b0 * 16777216) / 256 % 256 = b2 := by
  omega

theorem bytes_mod8 (b0 b1 b2 b3 : Nat) (h0 : b0 < 256) (h1 : b1 < 256)
    (h2 : b2 < 256) (h3 : b3 < 256) :
    (b3 + b2 * 256 + b1 * 65536 + b0 * 16777216) % 256 = b3 := by
  omega

/-- C6: for every 32-bit unsigned n, `swap_bytes` reverses the byte order
(byte i of the output is byte 3-i of the input), the output is again a
32-bit value, the conversion is an involution at the channel boundary
(`be_to_host32 (host_to_be32 n) = n`), and `swap_bytes (swap_bytes n) = n`. -/
theorem c6_swap_bytes_reverse_involution (n : Nat) (h : n < 2 ^ 32) :
    (EyefiHeader.byte_of (EyefiHeader.swap_bytes n) 0 = EyefiHeader.byte_of n 3
      ∧ EyefiHeader.byte_of (EyefiHeader.swap_bytes n) 1 = EyefiHeader.byte_of n 2
      ∧ EyefiHeader.byte_of (EyefiHeader.swap_bytes n) 2 = EyefiHeader.byte_of n 1
      ∧ EyefiHeader.byte_of (EyefiHeader.swap_bytes n) 3 = EyefiHeader.byte_of n 0)
    ∧ EyefiHeader.swap_bytes n < 2 ^ 32
    ∧ EyefiHeader.be_to_host32 (EyefiHeader.host_to_be32 n) = n
    ∧ EyefiHeader.swap_bytes (EyefiHeader.swap_bytes n) = n := by
  have h32 : n < 4294967296 := h
  clear h
  have hb0 : n % 256 < 256 := by omega
  have hb1 : n / 256 % 256 < 256 := by omega
  have hb2 : n / 65536 % 256 < 256 := by omega
  have hb3 : n / 16777216 % 256 < 256 := by omega
  have hinv : EyefiHeader.swap_bytes (EyefiHeader.swap_bytes n) = n := by
    rw [swap_bytes_eq_lit (EyefiHeader.swap_bytes n), swap_bytes_eq_lit n,
        bytes_div24 _ _ _ _ hb0 hb1 hb2 hb3,
        bytes_div16 _ _ _ _ hb0 hb1 hb2 hb3,
        bytes_div8 _ _ _ _ hb0 hb1 hb2 hb3,
        bytes_mod8 _ _ _ _ hb0 hb1 hb2 hb3]
    omega
  refine ⟨⟨?_, ?_, ?_, ?_⟩, ?_, ?_, hinv⟩
  · rw [byte_of_eq_0, byte_of_eq_3, swap_bytes_eq_lit n,
        bytes_mod8 _ _ _ _ hb0 hb1 hb2 hb3]
  · rw [byte_of_eq_1, byte_of_eq_2, swap_bytes_eq_lit n,
        bytes_div8 _ _ _ _ hb0 hb1 hb2 hb3]
  · rw [byte_of_eq_2, byte_of_eq_1, swap_bytes_eq_lit n,
        bytes_div16 _ _ _ _ hb0 hb1 hb2 hb3]
  · rw [byte_of_eq_3, byte_of_eq_0, swap_bytes_eq_lit n,
        bytes_div24 _ _ _ _ hb0 hb1 hb2 hb3]
  · rw [swap_bytes_eq_lit n]
    omega
  · unfold EyefiHeader.be_to_host32 EyefiHeader.host_to_be32
    exact hinv

/-- Witness for C6 at the concrete word 0x12345678. -/
theorem c6_swap_bytes_reverse_involution_witness :
    EyefiHeader.swap_bytes (EyefiHeader.swap_bytes 0x12345678) = 0x12345678 :=
  (c6_swap_bytes_reverse_involution 0x12345678 (by norm_num)).2.2.2

theorem find?_eq_some_split {α : Type} (p : α → Bool) (l : List α) (a : α)
    (h : l.find? p = some a) :
    p a = true ∧ ∃ l1 l2, l = l1 ++ a :: l2 ∧ ∀ x ∈ l1, p x = false := by
  induction l with
  | nil => simp [List.find?] at h
  | cons b t ih =>
    by_cases hb : p b
    · rw [List.find?_cons_of_pos _ hb] at h
      obtain rfl : b = a := by simpa using h
      exact ⟨hb, [], t, rfl, by simp⟩
    · rw [List.find?_cons_of_neg _ (by simpa using hb)] at h
      obtain ⟨hp, l1, l2, rfl, hall⟩ := ih h
      refine ⟨hp, b :: l1, l2, rfl, ?_⟩
      intro x hx
      rcases List.mem_cons.mp hx with rfl | hx
      · simpa using hb
      · exact hall x hx

/-- C7 counterexample: in an environment whose only present drive A carries
the volume label "stale\AA52-6922", the label does not exactly equal
"AA52-6922" (and no drive's label does), yet `locate_eyefi_mount` returns
drive A because the code compares `basename(label)`, not the label itself —
falsifying "returns the first candidate whose volume label exactly equals
AA52-6922, and none when no candidate matches". -/
theorem c7_basename_label_match :
    Eyefi.locate_eyefi_mount true Eyefi.stale_label_env = some "A:\\"
    ∧ (Eyefi.stale_label_env 'A').query = some "stale\\AA52-6922"
    ∧ Eyefi.basename "stale\\AA52-6922" = Eyefi.EYEFI_VOLUME_ID
    ∧ ("stale\\AA52-6922" == Eyefi.EYEFI_VOLUME_ID) = false
    ∧ Eyefi.no_exact_label_match Eyefi.stale_label_env = true := by
  refine ⟨?_, rfl, ?_, ?_, ?_⟩
  · decide
  · decide
  · decide
  · decide

/-- C7 amended: `locate_eyefi_mount` returns none exactly when no drive in
A..Z both exists and matches; when it returns a path, that path is the
drive-letter root of the first (in alphabetical scan order) matching drive,
where "matches" means the volume query succeeded and the basename of the
returned label equals "AA52-6922" (exact label equality for labels without
path separators); a failed volume query makes the drive a non-match and the
scan continues. -/
theorem c7_locate_amended :
    ∀ env : Char → Eyefi.DriveState,
      (Eyefi.locate_eyefi_mount true env = none
        ↔ ∀ c ∈ Eyefi.drive_letters, Eyefi.drive_matches env c = false)
      ∧ (∀ path, Eyefi.locate_eyefi_mount true env = some path →
          ∃ c l1 l2, path = Eyefi.drive_path c
            ∧ Eyefi.drive_matches env c = true
            ∧ Eyefi.drive_letters = l1 ++ c :: l2
            ∧ ∀ x ∈ l1, Eyefi.drive_matches env x = false)
      ∧ (∀ c, (env c).query = none → Eyefi.drive_matches env c = false) := by
  intro env
  refine ⟨?_, ?_, ?_⟩
  · unfold Eyefi.locate_eyefi_mount
    simp only [if_true]
    rw [Option.map_eq_none', List.find?_eq_none]
    constructor
    · intro h c hc
      have := h c hc
      simpa [Eyefi.drive_matches] using this
    · intro h c hc
      have := h c hc
      simpa [Eyefi.drive_matches] using this
  · intro path hp
    unfold Eyefi.locate_eyefi_mount at hp
    simp only [if_true] at hp
    obtain ⟨c, hc, rfl⟩ := Option.map_eq_some'.mp hp
    obtain ⟨hmatch, l1, l2, hsplit, hall⟩ := find?_eq_some_split _ _ _ hc
    exact ⟨c, l1, l2, rfl, hmatch, hsplit, hall⟩
  · intro c hq
    simp [Eyefi.drive_matches, Eyefi.dev_has_eyefi_vol_id, hq]

/-- Witness for C7 amended: drive B, whose volume query fails in the
fixture environment, is treated as a non-match. -/
theorem c7_locate_amended_witness :
    Eyefi.drive_matches Eyefi.stale_label_env 'B' = false :=
  (c7_locate_amended Eyefi.stale_label_env).2.2 'B' rfl
